import Mathlib

/-!
# GateLETActor: dose-averaged LET accumulation

A shallow embedding of `source/digits_hits/src/GateLETActor.cc` and the properties of its
construction (`Construct`), accumulation (`UserSteppingActionInVoxel`), reduction (`SaveData`)
and reset (`ResetData`).

Numbers: the source computes in `double`. A `double` is here a rational number, and the
methods are given twice. In the first definitions `+`, `*`, `/` and `==` are exact, the
real-number semantics the specification states its properties in; they carry the properties
that name a single operation of the source or that no rounding can disturb (frame, guard,
failure). The definitions of `Rounded` round the result of every operation with a rounding
`rnd`: `Binary64.round` gives the arithmetic of the source, a rounding that changes nothing
gives the first definitions back. Properties that rest on a law of arithmetic (the order of
additions, the cancellation of a product by a quotient) are evaluated there in double
arithmetic and proved for exact arithmetic. Overflow, underflow, signed zeros and NaN are
outside the model. A division by zero, which in IEEE arithmetic yields an infinity or a NaN
and no real number, has an unspecified result (`Env.divByZero`), so nothing proved below depends
on what such a division returns.

Calls that leave the file (the stopping-power calculator, the image writer, the methods of the
base class) are fields of `Env`; an exception they raise is a value of `Exception`.
-/

namespace GateLET

/-- A `G4ThreeVector`: three coordinates. -/
abbrev G4ThreeVector := ℚ × ℚ × ℚ

/-- An exception leaving a call: the stopping-power lookup failed, the image could not be
written, or an image was allocated with a resolution that has no voxel. -/
inductive Exception where
  | PhysicsLookupError
  | WriteError
  | GeometryError
  deriving DecidableEq, Repr

/-- Modelled from the spec: the class `GateImage` (declared and implemented outside
`GateLETActor.cc`). A dense grid: resolution, half-size, position, and one value per voxel in
flattened index order. -/
structure GateImage where
  resolution : G4ThreeVector
  halfSize : G4ThreeVector
  position : G4ThreeVector
  data : List ℚ
  deriving DecidableEq, Repr

namespace GateImage

/-- Modelled from the spec: `GateImage::Fill`, "sets every voxel to `value`". -/
def Fill (img : GateImage) (value : ℚ) : GateImage :=
  { img with data := List.replicate img.data.length value }

/-- Modelled from the spec: `GateImage::AddValue`, "if `0 <= index < count`, adds `delta` to
voxel `index`"; no effect when `index` is out of the range of the grid. The sum is exact; see
`Rounded.AddValue` for the sum of two `double`. -/
def AddValue (img : GateImage) (index : Int) (delta : ℚ) : GateImage :=
  if 0 ≤ index ∧ index < img.data.length then
    { img with data := img.data.modify (fun v => v + delta) index.toNat }
  else img

/-- Modelled from the spec: reading voxel `i` of the grid; `none` when `i` is no voxel of it. -/
def GetValue (img : GateImage) (i : Nat) : Option ℚ := img.data[i]?

end GateImage

/-- The part of a `G4Material` the actor reads. -/
structure G4Material where
  GetName : String
  GetDensity : ℚ
  deriving DecidableEq, Repr

/-- The part of a `G4StepPoint` the actor reads. -/
structure G4StepPoint where
  GetMaterial : G4Material
  GetKineticEnergy : ℚ
  deriving DecidableEq, Repr

/-- The part of a `G4ParticleDefinition` the actor reads. -/
structure G4ParticleDefinition where
  GetParticleName : String
  deriving DecidableEq, Repr

/-- The part of a `G4Track` the actor reads. -/
structure G4Track where
  GetWeight : ℚ
  GetDefinition : G4ParticleDefinition
  deriving DecidableEq, Repr

/-- The part of a `G4Step` the actor reads. -/
structure G4Step where
  GetTrack : G4Track
  GetTotalEnergyDeposit : ℚ
  GetPreStepPoint : G4StepPoint
  GetPostStepPoint : G4StepPoint
  deriving DecidableEq, Repr

/-- A `G4Run`, as far as the actor is concerned. -/
structure G4Run where
  GetRunID : Int
  deriving DecidableEq, Repr

/-- A `G4Event`, as far as the actor is concerned. -/
structure G4Event where
  GetEventID : Int
  deriving DecidableEq, Repr

/-- One call of `G4EmCalculator::ComputeElectronicDEDX`: kinetic energy, particle, material. -/
structure DEDXQuery where
  energy : ℚ
  partname : String
  material : String
  deriving DecidableEq, Repr

/-- The calculator object `emcalc` owned by the actor. Its only state that matters here is the
history of the lookups made through it, oldest first. -/
structure G4EmCalculator where
  queries : List DEDXQuery
  deriving DecidableEq, Repr

/-- Which point of a step is used to locate the voxel. -/
inductive StepHitType where
  | PreStepHitType
  | PostStepHitType
  | MiddleStepHitType
  | RandomStepHitType
  deriving DecidableEq, Repr

/-- The members inherited from `GateVImageActor` / `GateVActor` that `GateLETActor.cc` names. -/
structure GateVImageActor where
  mSaveFilename : String
  mResolution : G4ThreeVector
  mHalfSize : G4ThreeVector
  mPosition : G4ThreeVector
  mStepHitType : StepHitType
  mCurrentEvent : Int
  deriving DecidableEq, Repr

/-- The actor: the inherited members and the members declared by `GateLETActor`. -/
structure GateLETActor where
  base : GateVImageActor
  mIsRestrictedFlag : Bool
  mLETFilename : String
  mLETImage : GateImage
  mEdepImage : GateImage
  mFinalImage : GateImage
  emcalc : G4EmCalculator
  deriving DecidableEq, Repr

/-- Everything `GateLETActor.cc` calls but does not define.
* `ComputeElectronicDEDX`: the answer of `G4EmCalculator::ComputeElectronicDEDX`, a value or an
  exception; a function, so the same query always has the same answer.
* `Write`: the outcome of `GateImage::Write` for an image and a file name.
* `VActorSaveData`, `VActorBeginOfRunAction`, `VActorBeginOfEventAction`: the methods of the base
  class `GateVActor`, which see the inherited members only.
* `divByZero`: the result of dividing its argument by zero (see `Double.div`). -/
structure Env where
  ComputeElectronicDEDX : ℚ → String → String → Except Exception ℚ
  Write : GateImage → String → Except Exception Unit
  VActorSaveData : GateVImageActor → GateVImageActor
  VActorBeginOfRunAction : G4Run → GateVImageActor → GateVImageActor
  VActorBeginOfEventAction : G4Event → GateVImageActor → GateVImageActor
  divByZero : ℚ → ℚ

/-- The operator `/` on `double`: the quotient when the divisor is not zero, an unspecified
number otherwise. The quotient is exact; see `Rounded.div` for the rounded one. -/
def Double.div (env : Env) (x y : ℚ) : ℚ :=
  if y = 0 then env.divByZero x else x / y

/-- What a method leaves behind: the actor after the call and the exception that left the call,
if one did. -/
structure Outcome where
  actor : GateLETActor
  thrown : Option Exception

/-- The loop of `SaveData` over `iter_LET`, `iter_Edep`, `iter_Final`, on the voxel lists of the
three images; the result is the new voxel list of the Final image. The loop ends when `iter_LET`
reaches the end of the LET image; the voxels of the Final image beyond that are not written.
The source advances the other two iterators without a test, which is defined only when they
have a voxel left (the three images are allocated with one resolution); here the loop ends
there too. -/
def SaveData.loop (env : Env) : List ℚ → List ℚ → List ℚ → List ℚ
  | l :: lets, e :: edeps, _ :: finals =>
    (if e = 0 then 0 else Double.div env l e) :: SaveData.loop env lets edeps finals
  | _, _, finals => finals

/-- `GateLETActor::SaveData`: divide the cumulated LET by the cumulated edep, voxel by voxel,
into the Final image, then write the Final image to `mLETFilename`. -/
def SaveData (env : Env) (a : GateLETActor) : Outcome :=
  let a1 := { a with base := env.VActorSaveData a.base }
  let a2 := { a1 with mFinalImage :=
    { a1.mFinalImage with
      data := SaveData.loop env a1.mLETImage.data a1.mEdepImage.data a1.mFinalImage.data } }
  match env.Write a2.mFinalImage a2.mLETFilename with
  | .ok _ => ⟨a2, none⟩
  | .error ex => ⟨a2, some ex⟩

/-- `GateLETActor::ResetData`. -/
def ResetData (a : GateLETActor) : GateLETActor :=
  let a1 := { a with mLETImage := a.mLETImage.Fill 0 }
  { a1 with mEdepImage := a1.mEdepImage.Fill 0 }

/-- `GateLETActor::BeginOfRunAction`: the base-class method and a debug message; the call of
`ResetData` is commented out in the source. -/
def BeginOfRunAction (env : Env) (r : G4Run) (a : GateLETActor) : GateLETActor :=
  { a with base := env.VActorBeginOfRunAction r a.base }

/-- `GateLETActor::BeginOfEventAction`: the base-class method and a debug message. -/
def BeginOfEventAction (env : Env) (e : G4Event) (a : GateLETActor) : GateLETActor :=
  { a with base := env.VActorBeginOfEventAction e a.base }

/-- The lookup `emcalc->ComputeElectronicDEDX(energy, partname, material)`: the query is recorded
in the history of the calculator, the answer is that of `env`. -/
def G4EmCalculator.ComputeElectronicDEDX (env : Env) (c : G4EmCalculator)
    (energy : ℚ) (partname material : String) : G4EmCalculator × Except Exception ℚ :=
  ({ c with queries := c.queries ++ [⟨energy, partname, material⟩] },
   env.ComputeElectronicDEDX energy partname material)

/-- `GateLETActor::UserSteppingActionInVoxel`. -/
def UserSteppingActionInVoxel (env : Env) (index : Int) (step : G4Step)
    (a : GateLETActor) : Outcome :=
  let weight := step.GetTrack.GetWeight
  let edep := step.GetTotalEnergyDeposit * weight
  if edep = 0 then ⟨a, none⟩
  else if index < 0 then ⟨a, none⟩
  else
    let density := step.GetPreStepPoint.GetMaterial.GetDensity
    let material := step.GetPreStepPoint.GetMaterial.GetName
    let energy1 := step.GetPreStepPoint.GetKineticEnergy
    let energy2 := step.GetPostStepPoint.GetKineticEnergy
    let energy := (energy1 + energy2) / 2
    let partname := step.GetTrack.GetDefinition.GetParticleName
    match a.emcalc.ComputeElectronicDEDX env energy partname material with
    | (em, .error ex) => ⟨{ a with emcalc := em }, some ex⟩
    | (em, .ok dedx) =>
      let doseAveragedLET := edep * Double.div env dedx (density * 1.6e-19)
      let a1 := { a with emcalc := em }
      let a2 := { a1 with mLETImage := a1.mLETImage.AddValue index doseAveragedLET }
      let a3 := { a2 with mEdepImage := a2.mEdepImage.AddValue index edep }
      ⟨a3, none⟩

/-- Delivery of a finite sequence of steps, each with its voxel index:
`UserSteppingActionInVoxel` is called once per step, in order, each call on the actor as the
call before left it. -/
def UserSteppingActions (env : Env) : List (Int × G4Step) → GateLETActor → GateLETActor
  | [], a => a
  | (index, step) :: rest, a =>
    UserSteppingActions env rest (UserSteppingActionInVoxel env index step a).actor

/-- The weighted deposit `w` of a step: the energy deposit times the weight of the track. -/
def weightedEdep (step : G4Step) : ℚ :=
  step.GetTotalEnergyDeposit * step.GetTrack.GetWeight

/-- The per-step value `L = dedx / (density * 1.6e-19)` of a step, `dedx` being the answer of
the table for the mean kinetic energy, the particle and the material of the step; `none`
when the table has no answer. -/
def stepLET (env : Env) (step : G4Step) : Option ℚ :=
  match env.ComputeElectronicDEDX
      ((step.GetPreStepPoint.GetKineticEnergy + step.GetPostStepPoint.GetKineticEnergy) / 2)
      step.GetTrack.GetDefinition.GetParticleName step.GetPreStepPoint.GetMaterial.GetName with
  | .ok dedx => some (Double.div env dedx (step.GetPreStepPoint.GetMaterial.GetDensity * 1.6e-19))
  | .error _ => none

/-- A step qualifies for voxel `i` when its index is `i`, its weighted deposit is not zero and
its lookup has an answer; it then contributes the pair `(w, L)`. -/
def qualifying (env : Env) (i : Nat) (p : Int × G4Step) : Option (ℚ × ℚ) :=
  if p.1 = (i : Int) ∧ weightedEdep p.2 ≠ 0 then
    (stepLET env p.2).map (fun L => (weightedEdep p.2, L))
  else none

/-- The pairs `(w_k, L_k)` of the steps of a sequence that qualify for voxel `i`, in order. -/
def contributions (env : Env) (i : Nat) (steps : List (Int × G4Step)) : List (ℚ × ℚ) :=
  steps.filterMap (qualifying env i)

/-- The total deposit `sum(w_k)` of the qualifying steps of voxel `i`. -/
def sumEdep (env : Env) (i : Nat) (steps : List (Int × G4Step)) : ℚ :=
  ((contributions env i steps).map (fun c => c.1)).sum

/-- The total `sum(w_k * L_k)` of the qualifying steps of voxel `i`. -/
def sumLET (env : Env) (i : Nat) (steps : List (Int × G4Step)) : ℚ :=
  ((contributions env i steps).map (fun c => c.1 * c.2)).sum

/-! ## The methods with rounding

Every `+`, `*` and `/` of the source yields a `double`: the exact result rounded to the nearest
representable number. The definitions of this section are the methods above with each
arithmetic operation followed by a rounding `rnd`, which is a parameter. `Binary64.round` is the
rounding of IEEE binary64 (round to nearest, ties to even, 53 significant bits; the exponent
range is not bounded, so overflow and underflow are outside the model). With a rounding that
changes nothing they are the definitions above (`Rounded.AddValue_exact`,
`Rounded.UserSteppingActions_exact`, `Rounded.SaveData_exact`). -/

namespace Rounded

/-- `GateImage::AddValue` (see `GateImage.AddValue`), the sum rounded. -/
def AddValue (rnd : ℚ → ℚ) (img : GateImage) (index : Int) (delta : ℚ) : GateImage :=
  if 0 ≤ index ∧ index < img.data.length then
    { img with data := img.data.modify (fun v => rnd (v + delta)) index.toNat }
  else img

/-- The operator `/` on `double` (see `Double.div`), the quotient rounded. -/
def div (rnd : ℚ → ℚ) (env : Env) (x y : ℚ) : ℚ :=
  if y = 0 then env.divByZero x else rnd (x / y)

/-- The loop of `SaveData` (see `GateLET.SaveData.loop`), the quotient rounded. -/
def SaveData.loop (rnd : ℚ → ℚ) (env : Env) : List ℚ → List ℚ → List ℚ → List ℚ
  | l :: lets, e :: edeps, _ :: finals =>
    (if e = 0 then 0 else div rnd env l e) :: SaveData.loop rnd env lets edeps finals
  | _, _, finals => finals

/-- `GateLETActor::SaveData`, the quotients rounded. -/
def SaveData (rnd : ℚ → ℚ) (env : Env) (a : GateLETActor) : Outcome :=
  let a1 := { a with base := env.VActorSaveData a.base }
  let a2 := { a1 with mFinalImage :=
    { a1.mFinalImage with
      data := SaveData.loop rnd env a1.mLETImage.data a1.mEdepImage.data a1.mFinalImage.data } }
  match env.Write a2.mFinalImage a2.mLETFilename with
  | .ok _ => ⟨a2, none⟩
  | .error ex => ⟨a2, some ex⟩

/-- `GateLETActor::UserSteppingActionInVoxel`, every operation rounded; the literal `1.6e-19`
is the `double` nearest to it. -/
def UserSteppingActionInVoxel (rnd : ℚ → ℚ) (env : Env) (index : Int) (step : G4Step)
    (a : GateLETActor) : Outcome :=
  let weight := step.GetTrack.GetWeight
  let edep := rnd (step.GetTotalEnergyDeposit * weight)
  if edep = 0 then ⟨a, none⟩
  else if index < 0 then ⟨a, none⟩
  else
    let density := step.GetPreStepPoint.GetMaterial.GetDensity
    let material := step.GetPreStepPoint.GetMaterial.GetName
    let energy1 := step.GetPreStepPoint.GetKineticEnergy
    let energy2 := step.GetPostStepPoint.GetKineticEnergy
    let energy := rnd (rnd (energy1 + energy2) / 2)
    let partname := step.GetTrack.GetDefinition.GetParticleName
    match a.emcalc.ComputeElectronicDEDX env energy partname material with
    | (em, .error ex) => ⟨{ a with emcalc := em }, some ex⟩
    | (em, .ok dedx) =>
      let doseAveragedLET := rnd (edep * div rnd env dedx (rnd (density * rnd 1.6e-19)))
      let a1 := { a with emcalc := em }
      let a2 := { a1 with mLETImage := AddValue rnd a1.mLETImage index doseAveragedLET }
      let a3 := { a2 with mEdepImage := AddValue rnd a2.mEdepImage index edep }
      ⟨a3, none⟩

/-- Delivery of a finite sequence of steps (see `GateLET.UserSteppingActions`), every operation
rounded. -/
def UserSteppingActions (rnd : ℚ → ℚ) (env : Env) :
    List (Int × G4Step) → GateLETActor → GateLETActor
  | [], a => a
  | (index, step) :: rest, a =>
    UserSteppingActions rnd env rest (UserSteppingActionInVoxel rnd env index step a).actor

end Rounded

/-! ## A concrete actor and environment -/

/-- A calculator table answering 4 for every particle but the geantino, for which the lookup
fails; a writer that succeeds except on an empty file name; base-class methods that count the
events. -/
def Sample.env : Env where
  ComputeElectronicDEDX := fun _ partname _ =>
    if partname = "geantino" then .error .PhysicsLookupError else .ok 4
  Write := fun _ filename => if filename = "" then .error .WriteError else .ok ()
  VActorSaveData := fun b => b
  VActorBeginOfRunAction := fun _ b => b
  VActorBeginOfEventAction := fun e b => { b with mCurrentEvent := e.GetEventID }
  divByZero := fun _ => 1

/-- An image of two voxels with the given values. -/
def Sample.image (v0 v1 : ℚ) : GateImage :=
  { resolution := (2, 1, 1), halfSize := (1, 1, 1), position := (0, 0, 0), data := [v0, v1] }

/-- An actor with two voxels: LET = 6, 5; Edep = 3, 0; Final = 7, 7. -/
def Sample.actor : GateLETActor where
  base := { mSaveFilename := "let.mhd", mResolution := (2, 1, 1), mHalfSize := (1, 1, 1),
            mPosition := (0, 0, 0), mStepHitType := .PostStepHitType, mCurrentEvent := 0 }
  mIsRestrictedFlag := false
  mLETFilename := "let.mhd"
  mLETImage := Sample.image 6 5
  mEdepImage := Sample.image 3 0
  mFinalImage := Sample.image 7 7
  emcalc := { queries := [] }

/-- A step of the given particle depositing `edep` with track weight `weight`, in a material of
density 1, with kinetic energies 3 and 1 before and after. -/
def Sample.step (partname : String) (edep weight : ℚ) : G4Step where
  GetTrack := { GetWeight := weight, GetDefinition := { GetParticleName := partname } }
  GetTotalEnergyDeposit := edep
  GetPreStepPoint := { GetMaterial := { GetName := "G4_WATER", GetDensity := 1 },
                       GetKineticEnergy := 3 }
  GetPostStepPoint := { GetMaterial := { GetName := "G4_WATER", GetDensity := 1 },
                        GetKineticEnergy := 1 }

/-- The loop writes voxel `i` of the Final image from voxel `i` of the LET and Edep images. -/
theorem SaveData.loop_getElem? (env : Env) :
    ∀ (lets edeps finals : List ℚ) (i : Nat) (n d : ℚ),
      lets[i]? = some n → edeps[i]? = some d → i < finals.length →
      (SaveData.loop env lets edeps finals)[i]? = some (if d = 0 then 0 else Double.div env n d)
  | [], _, _, i, n, d, hn, _, _ => by simp at hn
  | _ :: _, [], _, i, n, d, _, hd, _ => by simp at hd
  | _ :: _, _ :: _, [], i, n, d, _, _, hi => by simp at hi
  | l :: lets, e :: edeps, f :: finals, 0, n, d, hn, hd, _ => by
    simp only [List.getElem?_cons_zero, Option.some.injEq] at hn hd
    subst hn; subst hd
    simp [SaveData.loop]
  | l :: lets, e :: edeps, f :: finals, i + 1, n, d, hn, hd, hi => by
    simp only [List.getElem?_cons_succ] at hn hd
    simp only [List.length_cons, Nat.add_lt_add_iff_right] at hi
    simpa [SaveData.loop] using SaveData.loop_getElem? env lets edeps finals i n d hn hd hi

/-- Running the loop again on its own output changes nothing. -/
theorem SaveData.loop_loop (env : Env) :
    ∀ (lets edeps finals : List ℚ),
      SaveData.loop env lets edeps (SaveData.loop env lets edeps finals)
        = SaveData.loop env lets edeps finals
  | [], _, _ => by simp [SaveData.loop]
  | _ :: _, [], _ => by simp [SaveData.loop]
  | _ :: _, _ :: _, [] => by simp [SaveData.loop]
  | l :: lets, e :: edeps, f :: finals => by
    simp [SaveData.loop, SaveData.loop_loop env lets edeps finals]

/-- The images of the actor after `SaveData`, whatever `Write` answers. -/
theorem SaveData_images (env : Env) (a : GateLETActor) :
    (SaveData env a).actor.mLETImage = a.mLETImage ∧
    (SaveData env a).actor.mEdepImage = a.mEdepImage ∧
    (SaveData env a).actor.mFinalImage = { a.mFinalImage with
      data := SaveData.loop env a.mLETImage.data a.mEdepImage.data a.mFinalImage.data } := by
  unfold SaveData
  dsimp only
  split <;> exact ⟨rfl, rfl, rfl⟩

/-- The loop does not depend on the environment: it never divides by zero, the only place where
the environment enters. -/
theorem SaveData.loop_env (env env' : Env) :
    ∀ (lets edeps finals : List ℚ),
      SaveData.loop env lets edeps finals = SaveData.loop env' lets edeps finals
  | [], _, _ => by simp [SaveData.loop]
  | _ :: _, [], _ => by simp [SaveData.loop]
  | _ :: _, _ :: _, [] => by simp [SaveData.loop]
  | l :: lets, e :: edeps, f :: finals => by
    have ih := SaveData.loop_env env env' lets edeps finals
    by_cases he : e = 0 <;> simp [SaveData.loop, Double.div, he, ih]

/-! ## C1 – C2: the reduction -/

/-- C1 (finalize ratio). For every actor and every voxel index `i` of its three images with
`Edep[i] = d`, `d ≠ 0` and `LET[i] = n`, after `SaveData` voxel `i` of the Final image holds
`n / d`, whatever the environment. -/
theorem SaveData_ratio (env : Env) (a : GateLETActor) (i : Nat) (n d : ℚ)
    (hEdep : a.mEdepImage.GetValue i = some d) (hd : d ≠ 0)
    (hLET : a.mLETImage.GetValue i = some n) (hFinal : i < a.mFinalImage.data.length) :
    (SaveData env a).actor.mFinalImage.GetValue i = some (n / d) := by
  have h := SaveData.loop_getElem? env _ _ _ i n d hLET hEdep hFinal
  rw [(SaveData_images env a).2.2]
  simpa [GateImage.GetValue, Double.div, hd] using h

/-- Instance of C1 on the sample actor: voxel 0 has LET 6 and Edep 3, and Final becomes 6 / 3. -/
theorem SaveData_ratio_witness :
    Sample.actor.mEdepImage.GetValue 0 = some 3 ∧ (3 : ℚ) ≠ 0 ∧
    Sample.actor.mLETImage.GetValue 0 = some 6 ∧ 0 < Sample.actor.mFinalImage.data.length ∧
    (SaveData Sample.env Sample.actor).actor.mFinalImage.GetValue 0 = some (6 / 3) :=
  ⟨rfl, by norm_num, rfl, by decide,
   SaveData_ratio Sample.env Sample.actor 0 6 3 rfl (by norm_num) rfl (by decide)⟩

/-- C2 (finalize zero-guard). For every actor and every voxel index `i` of its three images
with `Edep[i] = 0`, after `SaveData` voxel `i` of the Final image holds 0, whatever `LET[i]` and
the former `Final[i]` were. No division by zero is performed: the Final image that `SaveData`
computes is the same whatever a division by zero would return. -/
theorem SaveData_zero_guard (env : Env) (a : GateLETActor) (i : Nat)
    (hEdep : a.mEdepImage.GetValue i = some 0)
    (hLET : i < a.mLETImage.data.length) (hFinal : i < a.mFinalImage.data.length) :
    (SaveData env a).actor.mFinalImage.GetValue i = some 0 ∧
    ∀ divByZero : ℚ → ℚ,
      (SaveData { env with divByZero := divByZero } a).actor.mFinalImage
        = (SaveData env a).actor.mFinalImage := by
  constructor
  · have hn : a.mLETImage.data[i]? = some a.mLETImage.data[i] := List.getElem?_eq_getElem hLET
    have h := SaveData.loop_getElem? env _ _ _ i _ 0 hn hEdep hFinal
    rw [(SaveData_images env a).2.2]
    simpa [GateImage.GetValue] using h
  · intro dz
    rw [(SaveData_images env a).2.2, (SaveData_images _ a).2.2,
      SaveData.loop_env { env with divByZero := dz } env]

/-- Instance of C2 on the sample actor: voxel 1 has Edep 0 (and LET 5, Final 7). -/
theorem SaveData_zero_guard_witness :
    Sample.actor.mEdepImage.GetValue 1 = some 0 ∧
    1 < Sample.actor.mLETImage.data.length ∧ 1 < Sample.actor.mFinalImage.data.length ∧
    (SaveData Sample.env Sample.actor).actor.mFinalImage.GetValue 1 = some 0 :=
  ⟨rfl, by decide, by decide,
   (SaveData_zero_guard Sample.env Sample.actor 1 rfl (by decide) (by decide)).1⟩

/-! ## The accumulation step -/

/-- The voxel that `AddValue` addresses receives the increment. -/
theorem GateImage.GetValue_AddValue (img : GateImage) (index : Int) (delta v : ℚ)
    (hidx : 0 ≤ index) (hv : img.GetValue index.toNat = some v) :
    (img.AddValue index delta).GetValue index.toNat = some (v + delta) := by
  unfold GateImage.GetValue at hv
  have hlt : index.toNat < img.data.length := by
    rcases Nat.lt_or_ge index.toNat img.data.length with h | h
    · exact h
    · rw [List.getElem?_eq_none h] at hv; cases hv
  unfold GateImage.AddValue GateImage.GetValue
  rw [if_pos ⟨hidx, by omega⟩]
  simp [List.getElem?_modify_eq, hv]

/-- C3 (step update rule). For a step with voxel index `index ≥ 0` inside the LET and Edep
images and weighted deposit `edep = GetTotalEnergyDeposit * GetWeight ≠ 0`, whose lookup
returns `dedx`: `UserSteppingActionInVoxel` returns normally, makes exactly one lookup, with the
mean of the two kinetic energies, the particle name and the material name, adds
`edep * (dedx / (density * 1.6e-19))` to voxel `index` of the LET image and `edep` to voxel
`index` of the Edep image. The division is that of `double`, the quotient of the reals for
every density other than zero. -/
theorem UserSteppingActionInVoxel_update (env : Env) (a : GateLETActor) (index : Int)
    (step : G4Step) (l e dedx : ℚ)
    (hidx : 0 ≤ index)
    (hedep : step.GetTotalEnergyDeposit * step.GetTrack.GetWeight ≠ 0)
    (hLET : a.mLETImage.GetValue index.toNat = some l)
    (hEdep : a.mEdepImage.GetValue index.toNat = some e)
    (hdedx : env.ComputeElectronicDEDX
      ((step.GetPreStepPoint.GetKineticEnergy + step.GetPostStepPoint.GetKineticEnergy) / 2)
      step.GetTrack.GetDefinition.GetParticleName
      step.GetPreStepPoint.GetMaterial.GetName = .ok dedx) :
    (UserSteppingActionInVoxel env index step a).thrown = none ∧
    (UserSteppingActionInVoxel env index step a).actor.emcalc.queries
      = a.emcalc.queries ++
        [⟨(step.GetPreStepPoint.GetKineticEnergy + step.GetPostStepPoint.GetKineticEnergy) / 2,
          step.GetTrack.GetDefinition.GetParticleName,
          step.GetPreStepPoint.GetMaterial.GetName⟩] ∧
    (UserSteppingActionInVoxel env index step a).actor.mLETImage.GetValue index.toNat
      = some (l + step.GetTotalEnergyDeposit * step.GetTrack.GetWeight *
          Double.div env dedx (step.GetPreStepPoint.GetMaterial.GetDensity * 1.6e-19)) ∧
    (UserSteppingActionInVoxel env index step a).actor.mEdepImage.GetValue index.toNat
      = some (e + step.GetTotalEnergyDeposit * step.GetTrack.GetWeight) ∧
    (step.GetPreStepPoint.GetMaterial.GetDensity ≠ 0 →
      Double.div env dedx (step.GetPreStepPoint.GetMaterial.GetDensity * 1.6e-19)
        = dedx / (step.GetPreStepPoint.GetMaterial.GetDensity * 1.6e-19)) := by
  have hneg : ¬ index < 0 := by omega
  refine ⟨?_, ?_, ?_, ?_, ?_⟩
  · simp [UserSteppingActionInVoxel, hedep, hneg, G4EmCalculator.ComputeElectronicDEDX, hdedx]
  · simp [UserSteppingActionInVoxel, hedep, hneg, G4EmCalculator.ComputeElectronicDEDX, hdedx]
  · simp only [UserSteppingActionInVoxel, hedep, hneg, G4EmCalculator.ComputeElectronicDEDX,
      hdedx, if_false]
    exact GateImage.GetValue_AddValue _ _ _ _ hidx hLET
  · simp only [UserSteppingActionInVoxel, hedep, hneg, G4EmCalculator.ComputeElectronicDEDX,
      hdedx, if_false]
    exact GateImage.GetValue_AddValue _ _ _ _ hidx hEdep
  · intro hρ
    have h : step.GetPreStepPoint.GetMaterial.GetDensity * (1.6e-19 : ℚ) ≠ 0 :=
      mul_ne_zero hρ (by norm_num)
    simp [Double.div, h]

/-- Instance of C3: a proton step of deposit 2 and weight 1 into voxel 1 of the sample actor
(LET 5, Edep 0), for which the table answers 4. -/
theorem UserSteppingActionInVoxel_update_witness :
    (UserSteppingActionInVoxel Sample.env 1 (Sample.step "proton" 2 1) Sample.actor).thrown = none ∧
    (UserSteppingActionInVoxel Sample.env 1 (Sample.step "proton" 2 1) Sample.actor).actor.emcalc.queries
      = [⟨2, "proton", "G4_WATER"⟩] ∧
    (UserSteppingActionInVoxel Sample.env 1 (Sample.step "proton" 2 1)
        Sample.actor).actor.mLETImage.GetValue 1 = some (5 + 2 * (4 / (1 * 1.6e-19))) ∧
    (UserSteppingActionInVoxel Sample.env 1 (Sample.step "proton" 2 1)
        Sample.actor).actor.mEdepImage.GetValue 1 = some 2 := by
  have h := UserSteppingActionInVoxel_update Sample.env Sample.actor 1 (Sample.step "proton" 2 1)
    5 0 4 (by decide) (by norm_num [Sample.step]) rfl rfl (by simp [Sample.env, Sample.step])
  refine ⟨h.1, ?_, ?_, ?_⟩
  · have h2 := h.2.1
    norm_num [Sample.step, Sample.actor] at h2
    exact h2
  · have h3 := h.2.2.1
    rw [h.2.2.2.2 (by norm_num [Sample.step])] at h3
    norm_num [Sample.step] at h3 ⊢
    exact h3
  · have h4 := h.2.2.2.1
    norm_num [Sample.step] at h4
    exact h4

/-- C4 (discarded steps are no-ops). If every step of a finite sequence has a weighted deposit
of 0 or a voxel index below 0, delivering the whole sequence leaves the actor as it was: the LET,
Edep and Final images are unchanged and so is the history of the calculator, so no lookup was
made; every call returns normally. -/
theorem UserSteppingActions_discarded (env : Env) (steps : List (Int × G4Step))
    (a : GateLETActor)
    (h : ∀ p ∈ steps, p.2.GetTotalEnergyDeposit * p.2.GetTrack.GetWeight = 0 ∨ p.1 < 0) :
    UserSteppingActions env steps a = a ∧
    ∀ p ∈ steps, UserSteppingActionInVoxel env p.1 p.2 a = ⟨a, none⟩ := by
  have hstep : ∀ p ∈ steps, UserSteppingActionInVoxel env p.1 p.2 a = ⟨a, none⟩ := by
    intro p hp
    rcases h p hp with h0 | hneg
    · simp [UserSteppingActionInVoxel, h0]
    · simp [UserSteppingActionInVoxel, hneg]
  refine ⟨?_, hstep⟩
  induction steps with
  | nil => rfl
  | cons p rest ih =>
    obtain ⟨index, step⟩ := p
    have hp := hstep (index, step) (List.mem_cons_self _ _)
    simp only at hp
    simp only [UserSteppingActions, hp]
    exact ih (fun q hq => h q (List.mem_cons_of_mem _ hq))
      (fun q hq => hstep q (List.mem_cons_of_mem _ hq))

/-- Instance of C4: a step without deposit into voxel 0, then a step outside the grid. -/
theorem UserSteppingActions_discarded_witness :
    UserSteppingActions Sample.env
      [(0, Sample.step "proton" 0 1), (-1, Sample.step "proton" 2 1)] Sample.actor
      = Sample.actor :=
  (UserSteppingActions_discarded Sample.env
    [(0, Sample.step "proton" 0 1), (-1, Sample.step "proton" 2 1)] Sample.actor
    (by
      intro p hp
      simp only [List.mem_cons, List.mem_singleton, List.not_mem_nil, or_false] at hp
      rcases hp with rfl | rfl
      · left; norm_num [Sample.step]
      · right; decide)).1

/-! ## C5 – C7: what the other methods leave untouched -/

/-- C5 (finalize does not modify the accumulation images). For every actor and every
environment, so whether `Write` succeeds or raises, after `SaveData` the LET image and the Edep
image are what they were before; in particular `SaveData` can be called again and steps can
still be accumulated on the same sums. -/
theorem SaveData_keeps_LET_Edep (env : Env) (a : GateLETActor) :
    (SaveData env a).actor.mLETImage = a.mLETImage ∧
    (SaveData env a).actor.mEdepImage = a.mEdepImage :=
  ⟨(SaveData_images env a).1, (SaveData_images env a).2.1⟩

/-- C6 (reset clears only LET and Edep). After `ResetData` every voxel of the LET image and of
the Edep image is 0, the two images have as many voxels as before, and the Final image is what
it was. -/
theorem ResetData_clears_LET_Edep (a : GateLETActor) :
    (ResetData a).mLETImage.data = List.replicate a.mLETImage.data.length 0 ∧
    (ResetData a).mEdepImage.data = List.replicate a.mEdepImage.data.length 0 ∧
    (∀ i, i < a.mLETImage.data.length → (ResetData a).mLETImage.GetValue i = some 0) ∧
    (∀ i, i < a.mEdepImage.data.length → (ResetData a).mEdepImage.GetValue i = some 0) ∧
    (ResetData a).mFinalImage = a.mFinalImage := by
  refine ⟨rfl, rfl, ?_, ?_, rfl⟩ <;>
  · intro i hi
    simp [ResetData, GateImage.Fill, GateImage.GetValue, List.getElem?_replicate, hi]

/-- C7 (run and event start do not reset). `BeginOfRunAction` and `BeginOfEventAction` leave
the LET, Edep and Final images as they are, whatever the methods of the base class do. -/
theorem BeginOfRunAction_BeginOfEventAction_keep_images (env : Env) (r : G4Run) (e : G4Event)
    (a : GateLETActor) :
    ((BeginOfRunAction env r a).mLETImage = a.mLETImage ∧
     (BeginOfRunAction env r a).mEdepImage = a.mEdepImage ∧
     (BeginOfRunAction env r a).mFinalImage = a.mFinalImage) ∧
    ((BeginOfEventAction env e a).mLETImage = a.mLETImage ∧
     (BeginOfEventAction env e a).mEdepImage = a.mEdepImage ∧
     (BeginOfEventAction env e a).mFinalImage = a.mFinalImage) :=
  ⟨⟨rfl, rfl, rfl⟩, ⟨rfl, rfl, rfl⟩⟩

/-! ## Order in exact arithmetic; C9 – C10: idempotence, failure of the lookup -/

/-- C9 (finalize is idempotent on unchanged images). Calling `SaveData` twice in a row leaves,
after the second call, the Final, LET and Edep images that the first call left; the two calls
may meet different answers of the writer and of the base class. -/
theorem SaveData_twice (env1 env2 : Env) (a : GateLETActor) :
    (SaveData env2 (SaveData env1 a).actor).actor.mFinalImage
      = (SaveData env1 a).actor.mFinalImage ∧
    (SaveData env2 (SaveData env1 a).actor).actor.mLETImage
      = (SaveData env1 a).actor.mLETImage ∧
    (SaveData env2 (SaveData env1 a).actor).actor.mEdepImage
      = (SaveData env1 a).actor.mEdepImage := by
  refine ⟨?_, (SaveData_images env2 _).1, (SaveData_images env2 _).2.1⟩
  rw [(SaveData_images env2 _).2.2, (SaveData_images env1 a).1, (SaveData_images env1 a).2.1,
    (SaveData_images env1 a).2.2]
  simp only
  rw [SaveData.loop_env env2 env1, SaveData.loop_loop]

/-- C10 (lookup failure is atomic). If the lookup that `UserSteppingActionInVoxel` makes for a
step (one with a weighted deposit other than 0 and an index of 0 or more) raises `ex`, then `ex`
leaves the call and the LET, Edep and Final images are unchanged. For every call, failing or
not: either the LET and the Edep image are both unchanged, or the lookup returned a value and
both received their addition at `index`. -/
theorem UserSteppingActionInVoxel_lookup_failure (env : Env) (a : GateLETActor) (index : Int)
    (step : G4Step) :
    (∀ ex : Exception,
      step.GetTotalEnergyDeposit * step.GetTrack.GetWeight ≠ 0 → 0 ≤ index →
      env.ComputeElectronicDEDX
        ((step.GetPreStepPoint.GetKineticEnergy + step.GetPostStepPoint.GetKineticEnergy) / 2)
        step.GetTrack.GetDefinition.GetParticleName
        step.GetPreStepPoint.GetMaterial.GetName = .error ex →
      (UserSteppingActionInVoxel env index step a).thrown = some ex ∧
      (UserSteppingActionInVoxel env index step a).actor.mLETImage = a.mLETImage ∧
      (UserSteppingActionInVoxel env index step a).actor.mEdepImage = a.mEdepImage ∧
      (UserSteppingActionInVoxel env index step a).actor.mFinalImage = a.mFinalImage) ∧
    (((UserSteppingActionInVoxel env index step a).actor.mLETImage = a.mLETImage ∧
      (UserSteppingActionInVoxel env index step a).actor.mEdepImage = a.mEdepImage) ∨
     ∃ dedx : ℚ,
      env.ComputeElectronicDEDX
        ((step.GetPreStepPoint.GetKineticEnergy + step.GetPostStepPoint.GetKineticEnergy) / 2)
        step.GetTrack.GetDefinition.GetParticleName
        step.GetPreStepPoint.GetMaterial.GetName = .ok dedx ∧
      (UserSteppingActionInVoxel env index step a).actor.mLETImage
        = a.mLETImage.AddValue index (step.GetTotalEnergyDeposit * step.GetTrack.GetWeight *
            Double.div env dedx (step.GetPreStepPoint.GetMaterial.GetDensity * 1.6e-19)) ∧
      (UserSteppingActionInVoxel env index step a).actor.mEdepImage
        = a.mEdepImage.AddValue index (step.GetTotalEnergyDeposit * step.GetTrack.GetWeight)) := by
  constructor
  · intro ex hedep hidx hfail
    have hneg : ¬ index < 0 := by omega
    simp [UserSteppingActionInVoxel, hedep, hneg, G4EmCalculator.ComputeElectronicDEDX, hfail]
  · by_cases hedep : step.GetTotalEnergyDeposit * step.GetTrack.GetWeight = 0
    · left; simp [UserSteppingActionInVoxel, hedep]
    by_cases hidx : index < 0
    · left; simp [UserSteppingActionInVoxel, hedep, hidx]
    cases hq : env.ComputeElectronicDEDX
        ((step.GetPreStepPoint.GetKineticEnergy + step.GetPostStepPoint.GetKineticEnergy) / 2)
        step.GetTrack.GetDefinition.GetParticleName step.GetPreStepPoint.GetMaterial.GetName with
    | error ex =>
      left
      simp [UserSteppingActionInVoxel, hedep, hidx, G4EmCalculator.ComputeElectronicDEDX, hq]
    | ok dedx =>
      right
      refine ⟨dedx, rfl, ?_⟩
      simp [UserSteppingActionInVoxel, hedep, hidx, G4EmCalculator.ComputeElectronicDEDX, hq]

/-- Instance of C10: a geantino step of deposit 2 into voxel 1 of the sample actor; the table
has no entry for the geantino. -/
theorem UserSteppingActionInVoxel_lookup_failure_witness :
    (UserSteppingActionInVoxel Sample.env 1 (Sample.step "geantino" 2 1) Sample.actor).thrown
      = some .PhysicsLookupError ∧
    (UserSteppingActionInVoxel Sample.env 1 (Sample.step "geantino" 2 1)
      Sample.actor).actor.mLETImage = Sample.actor.mLETImage ∧
    (UserSteppingActionInVoxel Sample.env 1 (Sample.step "geantino" 2 1)
      Sample.actor).actor.mEdepImage = Sample.actor.mEdepImage ∧
    (UserSteppingActionInVoxel Sample.env 1 (Sample.step "geantino" 2 1)
      Sample.actor).actor.mFinalImage = Sample.actor.mFinalImage :=
  (UserSteppingActionInVoxel_lookup_failure Sample.env Sample.actor 1
    (Sample.step "geantino" 2 1)).1 .PhysicsLookupError
    (by norm_num [Sample.step]) (by decide) (by simp [Sample.env, Sample.step])

/-! ## The accumulated sums -/

/-- Reading voxel `i` after an addition at voxel `i`. -/
theorem GateImage.GetValue_AddValue_self (img : GateImage) (i : Nat) (delta : ℚ) :
    (img.AddValue (i : Int) delta).GetValue i = (img.GetValue i).map (fun v => v + delta) := by
  unfold GateImage.AddValue GateImage.GetValue
  by_cases h : i < img.data.length
  · rw [if_pos ⟨by omega, by omega⟩]
    simp [List.getElem?_modify_eq]
  · rw [if_neg (by omega)]
    simp [List.getElem?_eq_none (Nat.le_of_not_lt h)]

/-- Reading voxel `i` after an addition at another index. -/
theorem GateImage.GetValue_AddValue_other (img : GateImage) (index : Int) (i : Nat) (delta : ℚ)
    (h : index ≠ (i : Int)) :
    (img.AddValue index delta).GetValue i = img.GetValue i := by
  unfold GateImage.AddValue GateImage.GetValue
  split
  · next hr =>
    have hne : index.toNat ≠ i := by omega
    simp [List.getElem?_modify_ne _ _ hne]
  · rfl

/-- One call adds to voxel `i` of the LET and Edep images what the step contributes to the two
sums of voxel `i`, and does not write the Final image. -/
theorem UserSteppingActionInVoxel_GetValue (env : Env) (index : Int) (step : G4Step)
    (a : GateLETActor) (i : Nat) :
    (UserSteppingActionInVoxel env index step a).actor.mLETImage.GetValue i
      = (a.mLETImage.GetValue i).map (fun v => v + sumLET env i [(index, step)]) ∧
    (UserSteppingActionInVoxel env index step a).actor.mEdepImage.GetValue i
      = (a.mEdepImage.GetValue i).map (fun v => v + sumEdep env i [(index, step)]) ∧
    (UserSteppingActionInVoxel env index step a).actor.mFinalImage = a.mFinalImage := by
  have hid : ∀ o : Option ℚ, o.map (fun v => v + 0) = o := by
    intro o; cases o <;> simp
  by_cases hedep : step.GetTotalEnergyDeposit * step.GetTrack.GetWeight = 0
  · simp [UserSteppingActionInVoxel, hedep, sumLET, sumEdep, contributions, qualifying,
      weightedEdep, hid]
  by_cases hidx : index < 0
  · have hne : ¬ index = (i : Int) := by omega
    simp [UserSteppingActionInVoxel, hedep, hidx, sumLET, sumEdep, contributions, qualifying,
      hne, hid]
  cases hq : env.ComputeElectronicDEDX
      ((step.GetPreStepPoint.GetKineticEnergy + step.GetPostStepPoint.GetKineticEnergy) / 2)
      step.GetTrack.GetDefinition.GetParticleName step.GetPreStepPoint.GetMaterial.GetName with
  | error ex =>
    simp [UserSteppingActionInVoxel, hedep, hidx, G4EmCalculator.ComputeElectronicDEDX, hq,
      sumLET, sumEdep, contributions, qualifying, stepLET, hid]
  | ok dedx =>
    by_cases hi : index = (i : Int)
    · subst hi
      simp [UserSteppingActionInVoxel, hedep, hidx, G4EmCalculator.ComputeElectronicDEDX, hq,
        sumLET, sumEdep, contributions, qualifying, stepLET, weightedEdep,
        GateImage.GetValue_AddValue_self]
    · simp [UserSteppingActionInVoxel, hedep, hidx, G4EmCalculator.ComputeElectronicDEDX, hq,
        sumLET, sumEdep, contributions, qualifying, hi, hid,
        GateImage.GetValue_AddValue_other _ _ _ _ hi]

/-- C15 (negative deposits are not guarded). A step with index `index ≥ 0` inside the LET and
Edep images and weighted deposit `w < 0`, whose lookup returns `dedx`, is not discarded: the
call makes its lookup, `Edep[index]` decreases by `|w|` and `LET[index]` receives
`w * (dedx / (density * 1.6e-19))`, the update of a positive deposit. For an index of 0 or
more, the call leaves the actor untouched (lookup history included) exactly when the weighted
deposit is 0. -/
theorem UserSteppingActionInVoxel_negative_deposit (env : Env) (a : GateLETActor) (index : Int)
    (step : G4Step) (l e dedx : ℚ)
    (hidx : 0 ≤ index)
    (hneg : step.GetTotalEnergyDeposit * step.GetTrack.GetWeight < 0)
    (hLET : a.mLETImage.GetValue index.toNat = some l)
    (hEdep : a.mEdepImage.GetValue index.toNat = some e)
    (hdedx : env.ComputeElectronicDEDX
      ((step.GetPreStepPoint.GetKineticEnergy + step.GetPostStepPoint.GetKineticEnergy) / 2)
      step.GetTrack.GetDefinition.GetParticleName
      step.GetPreStepPoint.GetMaterial.GetName = .ok dedx) :
    (UserSteppingActionInVoxel env index step a).thrown = none ∧
    (UserSteppingActionInVoxel env index step a).actor.emcalc.queries.length
      = a.emcalc.queries.length + 1 ∧
    (UserSteppingActionInVoxel env index step a).actor.mEdepImage.GetValue index.toNat
      = some (e - |step.GetTotalEnergyDeposit * step.GetTrack.GetWeight|) ∧
    (UserSteppingActionInVoxel env index step a).actor.mLETImage.GetValue index.toNat
      = some (l + step.GetTotalEnergyDeposit * step.GetTrack.GetWeight *
          Double.div env dedx (step.GetPreStepPoint.GetMaterial.GetDensity * 1.6e-19)) ∧
    (∀ other : G4Step,
      UserSteppingActionInVoxel env index other a = ⟨a, none⟩ ↔
        other.GetTotalEnergyDeposit * other.GetTrack.GetWeight = 0) := by
  have hnot : ¬ index < 0 := by omega
  have hedep : step.GetTotalEnergyDeposit * step.GetTrack.GetWeight ≠ 0 := ne_of_lt hneg
  refine ⟨?_, ?_, ?_, ?_, ?_⟩
  · simp [UserSteppingActionInVoxel, hedep, hnot, G4EmCalculator.ComputeElectronicDEDX, hdedx]
  · simp [UserSteppingActionInVoxel, hedep, hnot, G4EmCalculator.ComputeElectronicDEDX, hdedx]
  · simp only [UserSteppingActionInVoxel, hedep, hnot, G4EmCalculator.ComputeElectronicDEDX,
      hdedx, if_false]
    rw [abs_of_neg hneg, sub_neg_eq_add]
    exact GateImage.GetValue_AddValue _ _ _ _ hidx hEdep
  · simp only [UserSteppingActionInVoxel, hedep, hnot, G4EmCalculator.ComputeElectronicDEDX,
      hdedx, if_false]
    exact GateImage.GetValue_AddValue _ _ _ _ hidx hLET
  · intro other
    constructor
    · intro hsame
      by_contra hw
      have hlen := congrArg (fun r : Outcome => r.actor.emcalc.queries.length) hsame
      cases hq : env.ComputeElectronicDEDX
        ((other.GetPreStepPoint.GetKineticEnergy + other.GetPostStepPoint.GetKineticEnergy) / 2)
        other.GetTrack.GetDefinition.GetParticleName
        other.GetPreStepPoint.GetMaterial.GetName <;>
      simp [UserSteppingActionInVoxel, hw, hnot, G4EmCalculator.ComputeElectronicDEDX, hq]
        at hlen
    · intro hw
      simp [UserSteppingActionInVoxel, hw]

/-- Instance of C15: a proton step of deposit 2 and track weight -1 into voxel 0 of the sample
actor (LET 6, Edep 3): Edep becomes 3 - 2. -/
theorem UserSteppingActionInVoxel_negative_deposit_witness :
    (UserSteppingActionInVoxel Sample.env 0 (Sample.step "proton" 2 (-1)) Sample.actor).thrown
      = none ∧
    (UserSteppingActionInVoxel Sample.env 0 (Sample.step "proton" 2 (-1))
      Sample.actor).actor.mEdepImage.GetValue 0 = some (3 - 2) := by
  have h := UserSteppingActionInVoxel_negative_deposit Sample.env Sample.actor 0
    (Sample.step "proton" 2 (-1)) 6 3 4 (by decide) (by norm_num [Sample.step]) rfl rfl
    (by simp [Sample.env, Sample.step])
  refine ⟨h.1, ?_⟩
  have h3 := h.2.2.1
  norm_num [Sample.step] at h3 ⊢
  exact h3

/-- C16 (step frame). After `UserSteppingActionInVoxel` for a step with index `index`, every
voxel `j ≠ index` of the LET image and of the Edep image reads what it read before, and the
Final image is unchanged. -/
theorem UserSteppingActionInVoxel_frame (env : Env) (a : GateLETActor) (index : Int)
    (step : G4Step) (j : Nat) (hj : (j : Int) ≠ index) :
    (UserSteppingActionInVoxel env index step a).actor.mLETImage.GetValue j
      = a.mLETImage.GetValue j ∧
    (UserSteppingActionInVoxel env index step a).actor.mEdepImage.GetValue j
      = a.mEdepImage.GetValue j ∧
    (UserSteppingActionInVoxel env index step a).actor.mFinalImage = a.mFinalImage := by
  have h := UserSteppingActionInVoxel_GetValue env index step a j
  have hne : ¬ index = (j : Int) := fun h => hj h.symm
  have hid : ∀ o : Option ℚ, o.map (fun v => v + 0) = o := by
    intro o; cases o <;> simp
  have hL : sumLET env j [(index, step)] = 0 := by
    simp [sumLET, contributions, qualifying, hne]
  have hE : sumEdep env j [(index, step)] = 0 := by
    simp [sumEdep, contributions, qualifying, hne]
  rw [hL] at h
  rw [hE] at h
  rw [hid, hid] at h
  exact h

/-- Instance of C16: a proton step of deposit 2 into voxel 1 of the sample actor leaves voxel 0
of the LET image at 6 and voxel 0 of the Edep image at 3. -/
theorem UserSteppingActionInVoxel_frame_witness :
    (UserSteppingActionInVoxel Sample.env 1 (Sample.step "proton" 2 1)
      Sample.actor).actor.mLETImage.GetValue 0 = some 6 ∧
    (UserSteppingActionInVoxel Sample.env 1 (Sample.step "proton" 2 1)
      Sample.actor).actor.mEdepImage.GetValue 0 = some 3 ∧
    (UserSteppingActionInVoxel Sample.env 1 (Sample.step "proton" 2 1)
      Sample.actor).actor.mFinalImage = Sample.actor.mFinalImage :=
  UserSteppingActionInVoxel_frame Sample.env Sample.actor 1 (Sample.step "proton" 2 1) 0
    (by decide)

/-- With a rounding that changes nothing, the rounded addition is `GateImage.AddValue`. -/
theorem Rounded.AddValue_exact (rnd : ℚ → ℚ) (hexact : ∀ x, rnd x = x) (img : GateImage)
    (index : Int) (delta : ℚ) :
    Rounded.AddValue rnd img index delta = img.AddValue index delta := by
  obtain rfl : rnd = fun x => x := funext hexact
  rfl

end GateLET
